import Mathlib

/-!
Verification development for the Substack leaderboard scraper
(`substack_scraper.py`).  The Python source is shallowly embedded:

* Python strings are modelled as `String` / `List Char` (ASCII case
  operations, matching the inputs the scraper handles);
* Python `float` is modelled exactly by rationals plus `inf`/`nan`
  markers (all decimal literals relevant to the specification are
  exactly representable, IEEE rounding is not modelled; string
  conversion overflow to `inf` and multiplication overflow are
  modelled by the `2^1024` magnitude threshold);
* exceptions (`ValueError`, `OverflowError`, write errors) are
  modelled with `Except` / explicit failure flags;
* Python `set` objects are modelled as lists queried only through
  membership (`add`/`update` become `++`), which is observationally
  equivalent since the code only performs membership tests;
* the browser environment (rendered page contents, discovered links,
  the wall clock, and I/O failures) is an explicit `Env` parameter.
-/

/-! ## Character and string utilities (Python `str` operations) -/

/-- ASCII lowering of a character list, modelling Python `str.lower()`
on the ASCII inputs the scraper manipulates. -/
def lowerL (s : List Char) : List Char := s.map Char.toLower

/-- `str.lower()` on `String`. -/
def lowerStr (s : String) : String := String.mk (lowerL s.data)

/-- Python whitespace test used by `str.strip()`. -/
def isPySpace (c : Char) : Bool :=
  c = ' ' || c = '\t' || c = '\n' || c = '\x0d' || c = '\x0b' || c = '\x0c'

/-- `str.strip()`: drop leading and trailing whitespace. -/
def pyStrip (s : List Char) : List Char :=
  ((s.dropWhile isPySpace).reverse.dropWhile isPySpace).reverse

/-- Fuelled worker for `str.replace`: replaces non-overlapping
occurrences of `pat` left to right.  The fuel is an upper bound on the
number of recursion steps; each step consumes at least one character,
so `s.length` fuel suffices. -/
def pyReplaceAux (pat rep : List Char) : Nat → List Char → List Char
  | 0, s => s
  | _ + 1, [] => []
  | fuel + 1, c :: cs =>
    if pat ≠ [] ∧ pat.isPrefixOf (c :: cs) then
      rep ++ pyReplaceAux pat rep fuel ((c :: cs).drop pat.length)
    else
      c :: pyReplaceAux pat rep fuel cs

/-- Python `str.replace(pat, rep)` (for non-empty `pat`, the only case
the scraper uses). -/
def pyReplace (s pat rep : List Char) : List Char :=
  pyReplaceAux pat rep s.length s

/-- Python substring test `pat in s`. -/
def hasSubstr (pat : List Char) : List Char → Bool
  | [] => pat.isPrefixOf []
  | c :: cs => pat.isPrefixOf (c :: cs) || hasSubstr pat cs

/-- Fuelled worker for `str.split(sep)` (non-empty separator,
non-overlapping, left to right). -/
def splitOnAux (pat : List Char) : Nat → List Char → List Char → List (List Char)
  | 0, s, cur => [cur.reverse ++ s]
  | _ + 1, [], cur => [cur.reverse]
  | fuel + 1, c :: cs, cur =>
    if pat.isPrefixOf (c :: cs) then
      cur.reverse :: splitOnAux pat fuel ((c :: cs).drop pat.length) []
    else
      splitOnAux pat fuel cs (c :: cur)

/-- Python `s.split(pat)` for non-empty `pat`. -/
def splitOnL (pat s : List Char) : List (List Char) :=
  splitOnAux pat (s.length + 1) s []

/-- Decimal digits of a natural number (fuelled division loop). -/
def natDecAux : Nat → Nat → List Char
  | 0, _ => []
  | fuel + 1, n =>
    if n < 10 then [Char.ofNat (48 + n)]
    else natDecAux fuel (n / 10) ++ [Char.ofNat (48 + n % 10)]

/-- Decimal rendering of a natural number, modelling Python `str(n)`. -/
def natDec (n : Nat) : String := String.mk (natDecAux (n + 1) n)

/-- Decimal rendering of an integer, modelling Python `str(i)`. -/
def intDec (i : Int) : String :=
  if i < 0 then String.mk ('-' :: (natDec i.natAbs).data) else natDec i.natAbs

/-! ## Python numeric conversions -/

/-- Exact unnormalized fraction: `num / den` with `den` kept positive
by construction.  Used to model Python `float` values exactly (no
normalization is needed, so every operation kernel-reduces). -/
structure Frac where
  num : Int
  den : Nat
deriving DecidableEq

/-- Embed a natural number. -/
def Frac.ofNat (n : Nat) : Frac := ⟨(n : Int), 1⟩

/-- Exact addition. -/
def Frac.add (a b : Frac) : Frac :=
  ⟨a.num * (b.den : Int) + b.num * (a.den : Int), a.den * b.den⟩

/-- Negation. -/
def Frac.neg (a : Frac) : Frac := ⟨-a.num, a.den⟩

/-- Multiplication by a natural number. -/
def Frac.mulNat (a : Frac) (f : Nat) : Frac := ⟨a.num * (f : Int), a.den⟩

/-- Multiplication by `10 ^ k`. -/
def Frac.mulPow10 (a : Frac) (k : Nat) : Frac := ⟨a.num * ((10 ^ k : Nat) : Int), a.den⟩

/-- Division by `10 ^ k`. -/
def Frac.divPow10 (a : Frac) (k : Nat) : Frac := ⟨a.num, a.den * 10 ^ k⟩

/-- Exact order comparison by cross-multiplication (denominators are
positive by construction). -/
def Frac.le (a b : Frac) : Bool := a.num * (b.den : Int) ≤ b.num * (a.den : Int)

/-- Truncation toward zero, modelling Python `int(float)`. -/
def Frac.trunc (a : Frac) : Int := a.num.tdiv (a.den : Int)

/-- Result of Python `float(text)`: a finite value (exact fraction),
a signed infinity, or `nan`. -/
inductive PyFloat where
  | finite (q : Frac)
  | inf (neg : Bool)
  | nan
deriving DecidableEq

/-- Python exception classes relevant to `parse_subscriber_count`. -/
inductive PyErr where
  | valueError
  | overflowError
deriving DecidableEq

/-- Value of a non-empty all-digit character list. -/
def digitsVal? (l : List Char) : Option Nat :=
  if l ≠ [] ∧ l.all Char.isDigit then
    some (l.foldl (fun n c => n * 10 + (c.toNat - 48)) 0)
  else none

/-- Split a list at the first occurrence of a character. -/
def splitOnceChar (c : Char) : List Char → Option (List Char × List Char)
  | [] => none
  | x :: xs =>
    if x = c then some ([], xs)
    else (splitOnceChar c xs).map (fun p => (x :: p.1, p.2))

/-- Unsigned decimal mantissa of a float literal:
`digits`, `digits.digits`, `.digits` or `digits.` (at least one digit). -/
def mantissaVal? (l : List Char) : Option Frac :=
  match splitOnceChar '.' l with
  | none => (digitsVal? l).map Frac.ofNat
  | some (a, b) =>
    if hasSubstr (['.']) b then none
    else if a.all Char.isDigit ∧ b.all Char.isDigit ∧ ¬(a = [] ∧ b = []) then
      let av : Nat := (digitsVal? a).getD 0
      let bv : Nat := (digitsVal? b).getD 0
      some ((Frac.ofNat av).add ((Frac.ofNat bv).divPow10 b.length))
    else none

/-- Signed decimal exponent of a float literal. -/
def expVal? (l : List Char) : Option Int :=
  match l with
  | '+' :: rest => (digitsVal? rest).map (fun n => (n : Int))
  | '-' :: rest => (digitsVal? rest).map (fun n => -(n : Int))
  | _ => (digitsVal? l).map (fun n => (n : Int))

/-- Strip an optional sign, returning (isNegative, rest). -/
def stripSign : List Char → Bool × List Char
  | '+' :: rest => (false, rest)
  | '-' :: rest => (true, rest)
  | l => (false, l)

/-- Magnitude threshold beyond which Python float conversion and
arithmetic yield infinity (`2 ^ 1024`). -/
def floatMax : Frac := ⟨(((2 ^ 256 : Nat) ^ 4 : Nat) : Int), 1⟩

/-- Pack a signed fraction into a `PyFloat`, overflowing to infinity. -/
def mkPyFloat (neg : Bool) (q : Frac) : PyFloat :=
  if floatMax.le q then PyFloat.inf neg
  else PyFloat.finite (if neg then q.neg else q)

/-- Python `float(text)`: `none` models `ValueError`.  Accepts optional
sign, `inf`/`infinity`/`nan`, and decimal literals with an optional
`e`-exponent.  (Digit-group underscores are not modelled.) -/
def pyFloat? (s : List Char) : Option PyFloat :=
  let t := lowerL (pyStrip s)
  let (neg, t) := stripSign t
  if t = ("inf").data ∨ t = ("infinity").data then some (PyFloat.inf neg)
  else if t = ("nan").data then some PyFloat.nan
  else
    match splitOnceChar 'e' t with
    | none => (mantissaVal? t).map (fun q => mkPyFloat neg q)
    | some (m, ex) =>
      match mantissaVal? m, expVal? ex with
      | some q, some e =>
        let v : Frac :=
          if 0 ≤ e then q.mulPow10 e.toNat else q.divPow10 (-e).toNat
        some (mkPyFloat neg v)
      | _, _ => none

/-- Python `int(text)` for base-10 string conversion:
`none` models `ValueError`. -/
def pyInt? (s : List Char) : Option Int :=
  let t := pyStrip s
  match t with
  | '+' :: rest => (digitsVal? rest).map (fun n => (n : Int))
  | '-' :: rest => (digitsVal? rest).map (fun n => -(n : Int))
  | _ => (digitsVal? t).map (fun n => (n : Int))

/-- `float * 1000` / `float * 1000000`, with overflow to infinity
(the factor is positive). -/
def pyScale (v : PyFloat) (f : Nat) : PyFloat :=
  match v with
  | PyFloat.finite q =>
    let r := q.mulNat f
    if floatMax.le r then PyFloat.inf false
    else if r.le floatMax.neg then PyFloat.inf true
    else PyFloat.finite r
  | x => x

/-- Python `int(v)` on a float value: truncates finite values, raises
`OverflowError` on infinities and `ValueError` on `nan`. -/
def pyIntOfFloat : PyFloat → Except PyErr Int
  | PyFloat.finite q => Except.ok q.trunc
  | PyFloat.inf _ => Except.error PyErr.overflowError
  | PyFloat.nan => Except.error PyErr.valueError

/-- Decidable equality for `Except`, used to evaluate parser results. -/
def exceptDecEq {ε α : Type} [DecidableEq ε] [DecidableEq α] :
    DecidableEq (Except ε α)
  | Except.ok a, Except.ok b =>
    if h : a = b then isTrue (by rw [h])
    else isFalse (by intro hc; cases hc; exact h rfl)
  | Except.ok _, Except.error _ => isFalse (by intro hc; cases hc)
  | Except.error _, Except.ok _ => isFalse (by intro hc; cases hc)
  | Except.error e, Except.error f =>
    if h : e = f then isTrue (by rw [h])
    else isFalse (by intro hc; cases hc; exact h rfl)

instance {ε α : Type} [DecidableEq ε] [DecidableEq α] :
    DecidableEq (Except ε α) := exceptDecEq

/-! ## `parse_subscriber_count` (substack_scraper.py lines 109-129) -/

/-- Body of the `try:` block of `parse_subscriber_count`, applied to
the cleaned text. -/
def parseCountBody (text : List Char) : Except PyErr Int :=
  if hasSubstr (['k']) text then
    match pyFloat? (pyReplace text (['k']) []) with
    | none => Except.error PyErr.valueError
    | some v => pyIntOfFloat (pyScale v 1000)
  else if hasSubstr (['m']) text then
    match pyFloat? (pyReplace text (['m']) []) with
    | none => Except.error PyErr.valueError
    | some v => pyIntOfFloat (pyScale v 1000000)
  else
    match pyInt? (pyReplace text ([',']) []) with
    | none => Except.error PyErr.valueError
    | some n => Except.ok n

/-- `parse_subscriber_count(text)`: returns the parsed count or the
propagated Python exception.  The `except ValueError` handler turns a
`ValueError` into `0`; any other exception escapes to the caller. -/
def parse_subscriber_count (s : String) : Except PyErr Int :=
  if s.data = [] then Except.ok 0
  else
    let text :=
      pyStrip
        (pyReplace
          (pyReplace
            (pyReplace (lowerL s.data) (("subscribers").data) [])
            (("+").data) [])
          (("see").data) [])
    match parseCountBody text with
    | Except.error PyErr.valueError => Except.ok 0
    | Except.error PyErr.overflowError => Except.error PyErr.overflowError
    | Except.ok n => Except.ok n

/-! ## Configuration and category titles -/

/-- The behaviour-relevant configuration keys produced by
`load_config` (delay/browser/output-path settings only affect timing
and file locations, which the model keeps outside the state). -/
structure RunConfig where
  max_profiles : Nat
  max_subscribers : Int
  min_subscribers : Int
  platforms : List String
  require_social_links : Bool
  concurrent_profiles : Nat

/-- Python `str.title()` (ASCII): the first letter of each
letter-run is uppercased, subsequent letters lowercased. -/
def pyTitleAux : Bool → List Char → List Char
  | _, [] => []
  | prevAlpha, c :: cs =>
    if c.isAlpha then
      (if prevAlpha then c.toLower else c.toUpper) :: pyTitleAux true cs
    else c :: pyTitleAux false cs

/-- Python `str.title()`. -/
def pyTitle (s : String) : String := String.mk (pyTitleAux false s.data)

/-- The `CATEGORY_TITLES` slug-to-display-name table. -/
def CATEGORY_TITLES : List (String × String) :=
  [("bestseller", "Bestseller"), ("culture", "Culture"),
   ("technology", "Technology"), ("business", "Business"),
   ("us-politics", "US Politics"), ("finance", "Finance"),
   ("food", "Food & Drink"), ("sports", "Sports"),
   ("art", "Art & Illustration"), ("world-politics", "World Politics"),
   ("health-politics", "Health & Politics"), ("explore", "Explore"),
   ("science", "Science"), ("music", "Music"),
   ("faith", "Faith & Spirituality"), ("climate", "Climate"),
   ("education", "Education"), ("history", "History"),
   ("parenting", "Parenting"), ("travel", "Travel")]

/-- `get_category_title(url_slug)`. -/
def get_category_title (slug : String) : String :=
  ((CATEGORY_TITLES.lookup (lowerStr slug)).getD (pyTitle slug))

/-- Category slug of a leaderboard URL
(`url.split("/")[-2] if "/rising" in url else "explore"`). -/
def categorySlugOf (url : String) : String :=
  if hasSubstr (("/rising").data) url.data then
    let parts := splitOnL (("/").data) url.data
    String.mk ((parts.drop (parts.length - 2)).headD [])
  else ("explore")

/-- The handle segment of a profile URL
(`profile_url.split("/@")[-1]`). -/
def usernameOfUrl (url : String) : String :=
  String.mk (((splitOnL (("/@").data) url.data).getLast?).getD url.data)

/-- Case-normalized identity key of a profile URL. -/
def keyOfUrl (url : String) : String := lowerStr (usernameOfUrl url)

/-! ## Profile records and CSV persistence -/

/-- A scraped profile record (`profile_data` dict). -/
structure Profile where
  username : String
  profile_url : String
  subscriber_count : Int
  social_links : List (String × String)
  scraped_at : String
  category : String
deriving DecidableEq

/-- `get_csv_header()`: the fixed-order header row. -/
def get_csv_header : List String :=
  ["Username", "Profile URL", "Subscribers", "Twitter", "Instagram",
   "TikTok", "LinkedIn", "Facebook", "YouTube", "Linktree", "Threads",
   "Bluesky", "GitHub", "Medium", "Other", "Scraped At", "Category"]

/-- The `all_platforms` column order used by `append_to_csv`. -/
def all_platforms : List String :=
  ["twitter", "instagram", "tiktok", "linkedin", "facebook", "youtube",
   "linktree", "threads", "bluesky", "github", "medium", "other"]

/-- The CSV row written for one profile. -/
def rowOfProfile (p : Profile) : List String :=
  [p.username, p.profile_url, intDec p.subscriber_count]
    ++ all_platforms.map (fun pl => ((p.social_links.lookup pl).getD ("")))
    ++ [p.scraped_at, p.category]

/-- The durable CSV store: `none` when the file does not exist,
`some rows` otherwise (an existing empty file is `some []`). -/
def append_to_csv (p : Profile) (store : Option (List (List String))) :
    Option (List (List String)) :=
  match store with
  | none => some ([get_csv_header, rowOfProfile p])
  | some rows => some (rows ++ [rowOfProfile p])

/-- The case-normalized identity keys of the store's data rows (every
row after the first, whose first cell the dedup loader lowercases). -/
def storeDataKeys : Option (List (List String)) → List String
  | none => []
  | some rows => (rows.drop 1).filterMap (fun r => r.head?.map lowerStr)

/-- `load_existing_profiles`: reads the store, skips the first row,
collects lowercased first cells.  `failAfter = some k` models an
exception raised after `k` rows were consumed: the handler prints a
warning and the partially accumulated set is returned. -/
def load_existing_profiles (store : Option (List (List String)))
    (failAfter : Option Nat) : List String :=
  match store with
  | none => []
  | some rows =>
    let readRows :=
      match failAfter with
      | some k => rows.take k
      | none => rows
    (readRows.drop 1).filterMap (fun r => r.head?.map lowerStr)

/-! ## Browser environment -/

/-- What the rendering engine yields for one profile URL:
whether extraction raises, whether the rate-limit marker is present in
the page content, the subscriber-link text, and the platform-classified
outbound links produced by the page-side script. -/
structure PageData where
  extractError : Bool
  throttled : Bool
  subscriberText : String
  socialLinks : List (String × String)

/-- What one leaderboard URL yields: whether navigation/discovery
raises, and the profile URLs revealed by scrolling. -/
structure SourceData where
  loadError : Bool
  discovered : List String

/-- The external world: page contents per URL, discovery per source,
which appends fail with an I/O error (keyed by the record's username),
and the wall clock. -/
structure Env where
  page : String → PageData
  source : String → SourceData
  appendFails : String → Bool
  now : String

/-! ## Run events (observable actions, for ordering claims) -/

/-- Observable actions of a run. -/
inductive Event where
  | sourceStarted (url : String) (totalAtStart : Nat)
  | batchStarted (totalAtStart : Nat)
  | fetchIssued (url : String)
  | throttleMarked (username : String)
  | errorDelayInvoked
deriving DecidableEq

/-- URLs for which navigation was issued. -/
def fetchedUrls (evts : List Event) : List String :=
  evts.filterMap (fun e =>
    match e with
    | Event.fetchIssued u => some u
    | _ => none)

/-- Number of escalated (`error_delay_ms`) delays invoked. -/
def countErrorDelays (evts : List Event) : Nat :=
  (evts.filter (fun e => decide (e = Event.errorDelayInvoked))).length

/-! ## Filter chain (substack_scraper.py lines 443-490) -/

/-- The four steps of the filter chain, in source order. -/
inductive FilterStep where
  | ceiling
  | floor
  | platformProj
  | requiredLink
deriving DecidableEq

/-- Outcome of the filter chain on an extracted record. -/
inductive FilterOutcome where
  | accepted (links : List (String × String))
  | skippedOut
deriving DecidableEq

/-- The fixed evaluation order of the chain. -/
def filterOrder : List FilterStep :=
  [FilterStep.ceiling, FilterStep.floor, FilterStep.platformProj,
   FilterStep.requiredLink]

/-- The filter chain applied to an extracted subscriber count and link
mapping: ceiling check, floor check, platform allow-list projection,
required-link check, short-circuiting on the first failing step.  The
second component records which steps were reached, in order. -/
def filterChain (cfg : RunConfig) (count : Int)
    (links : List (String × String)) : FilterOutcome × List FilterStep :=
  if 0 < cfg.max_subscribers ∧ cfg.max_subscribers < count then
    (FilterOutcome.skippedOut, [FilterStep.ceiling])
  else if 0 < cfg.min_subscribers ∧ count < cfg.min_subscribers then
    (FilterOutcome.skippedOut, [FilterStep.ceiling, FilterStep.floor])
  else
    let links2 :=
      if cfg.platforms ≠ [] then
        links.filter (fun kv => (cfg.platforms.map lowerStr).contains (lowerStr kv.1))
      else links
    if cfg.require_social_links ∧ links2 = [] then
      (FilterOutcome.skippedOut, filterOrder)
    else
      (FilterOutcome.accepted links2, filterOrder)

/-! ## Batch fetch and extraction (`scrape_profile_batch`) -/

/-- Accumulated outcome of one batch. -/
structure BatchOut where
  results : List Profile
  skipped : Nat
  errors : Nat
  newUsernames : List String
  events : List Event

/-- The sequential extraction loop over a batch's already-navigated
pages (lines 419-507): re-checks the dedup set, detects the throttle
marker, parses the subscriber count (any exception is caught by the
per-candidate handler and counted as an error), runs the filter chain,
and collects accepted records. -/
def extractLoop (cfg : RunConfig) (env : Env) (category : String)
    (existing : List String) : List String → BatchOut → BatchOut
  | [], acc => acc
  | url :: rest, acc =>
    let username := usernameOfUrl url
    if lowerStr username ∈ existing then
      extractLoop cfg env category existing rest acc
    else
      let pd := env.page url
      if pd.extractError then
        extractLoop cfg env category existing rest
          { acc with errors := acc.errors + 1 }
      else if pd.throttled then
        extractLoop cfg env category existing rest
          { acc with errors := acc.errors + 1,
                     events := acc.events ++ [Event.throttleMarked username] }
      else
        match parse_subscriber_count pd.subscriberText with
        | Except.error _ =>
          extractLoop cfg env category existing rest
            { acc with errors := acc.errors + 1 }
        | Except.ok count =>
          match filterChain cfg count pd.socialLinks with
          | (FilterOutcome.skippedOut, _) =>
            extractLoop cfg env category existing rest
              { acc with skipped := acc.skipped + 1 }
          | (FilterOutcome.accepted links2, _) =>
            let p : Profile :=
              { username := username, profile_url := url,
                subscriber_count := count, social_links := links2,
                scraped_at := env.now, category := category }
            extractLoop cfg env category existing rest
              { acc with results := acc.results ++ [p],
                         newUsernames := acc.newUsernames ++ [lowerStr username] }

/-- `scrape_profile_batch`: navigation is issued for every URL of the
batch (lines 399-416), then extraction runs sequentially. -/
def scrape_profile_batch (cfg : RunConfig) (env : Env)
    (urls : List String) (category : String) (existing : List String) :
    BatchOut :=
  extractLoop cfg env category existing urls
    { results := [], skipped := 0, errors := 0, newUsernames := [],
      events := urls.map Event.fetchIssued }

/-! ## Single-profile path (`scrape_profile`, lines 277-380) -/

/-- Return value of `scrape_profile`: a record, the `"skipped"`
marker, or `None`. -/
inductive SPResult where
  | data (p : Profile)
  | skippedR
  | errored
deriving DecidableEq

/-- `scrape_profile`: on a throttle marker it sleeps the escalated
`error_delay_ms` once and returns `None`; an exception also yields
`None`; otherwise the same filter chain decides the outcome. -/
def scrape_profile (cfg : RunConfig) (env : Env) (url : String)
    (category : String) : SPResult × List Event :=
  let pd := env.page url
  if pd.extractError then (SPResult.errored, [])
  else if pd.throttled then (SPResult.errored, [Event.errorDelayInvoked])
  else
    match parse_subscriber_count pd.subscriberText with
    | Except.error _ => (SPResult.errored, [])
    | Except.ok count =>
      match filterChain cfg count pd.socialLinks with
      | (FilterOutcome.skippedOut, _) => (SPResult.skippedR, [])
      | (FilterOutcome.accepted links2, _) =>
        (SPResult.data
          { username := usernameOfUrl url, profile_url := url,
            subscriber_count := count, social_links := links2,
            scraped_at := env.now, category := category }, [])

/-! ## Orchestrator driver (`scrape_leaderboards`, lines 520-616) -/

/-- Mutable run state of the driver. -/
structure RunState where
  store : Option (List (List String))
  existing : List String
  total : Nat
  collected : Nat
  skipped : Nat
  errors : Nat
  events : List Event
deriving DecidableEq

/-- The per-batch persistence loop (lines 587-590): each accepted
record is appended and counted; a write error raises, abandoning the
remaining records of the batch (second component `true`). -/
def appendResults (env : Env) : List Profile → RunState → RunState × Bool
  | [], st => (st, false)
  | p :: rest, st =>
    if env.appendFails p.username then (st, true)
    else
      appendResults env rest
        { st with store := append_to_csv p st.store,
                  total := st.total + 1,
                  collected := st.collected + 1 }

/-- The per-source batch loop (lines 572-600): before each batch the
global quota is checked; the batch is sliced, scraped, persisted, and
the dedup set is extended.  A persistence failure propagates as an
exception (second component `true`).  The fuel bounds the recursion;
`urls.length` suffices whenever `concurrent_profiles ≥ 1`. -/
def processBatches (cfg : RunConfig) (env : Env) (category : String) :
    Nat → List String → RunState → RunState × Bool
  | 0, _, st => (st, false)
  | fuel + 1, urls, st =>
    if urls = [] then (st, false)
    else if cfg.max_profiles ≤ st.total then (st, false)
    else
      let batchUrls := urls.take cfg.concurrent_profiles
      let b := scrape_profile_batch cfg env batchUrls category st.existing
      let st1 :=
        { st with events := st.events ++ [Event.batchStarted st.total] ++ b.events }
      match appendResults env b.results st1 with
      | (st2, true) => (st2, true)
      | (st2, false) =>
        let st3 :=
          { st2 with existing := st2.existing ++ b.newUsernames,
                     skipped := st2.skipped + b.skipped,
                     errors := st2.errors + b.errors }
        processBatches cfg env category fuel (urls.drop cfg.concurrent_profiles) st3

/-- Processing of one leaderboard source (lines 559-610): navigate and
discover, filter out identities already in the dedup set, process
batches.  Any exception inside the source (navigation failure or a
persistence failure from the batch loop) is caught by the per-source
handler, which counts one error and lets the run continue. -/
def processSource (cfg : RunConfig) (env : Env) (url : String)
    (st : RunState) : RunState :=
  let st := { st with events := st.events ++ [Event.sourceStarted url st.total] }
  let category := get_category_title (categorySlugOf url)
  let sd := env.source url
  if sd.loadError then { st with errors := st.errors + 1 }
  else
    let newUrls := sd.discovered.filter (fun u => decide (keyOfUrl u ∉ st.existing))
    match processBatches cfg env category newUrls.length newUrls st with
    | (st2, true) => { st2 with errors := st2.errors + 1 }
    | (st2, false) => st2

/-- The source loop (lines 545-548): before each source the global
quota is checked; when met, the loop breaks and remaining sources are
skipped. -/
def processSources (cfg : RunConfig) (env : Env) :
    List String → RunState → RunState
  | [], st => st
  | url :: rest, st =>
    if cfg.max_profiles ≤ st.total then st
    else processSources cfg env rest (processSource cfg env url st)

/-- `scrape_leaderboards`: loads the dedup set from the existing store
(`readFail` models an unreadable store) and processes every source. -/
def scrape_leaderboards (cfg : RunConfig) (env : Env)
    (urls : List String) (store0 : Option (List (List String)))
    (readFail : Option Nat) : RunState :=
  processSources cfg env urls
    { store := store0,
      existing := load_existing_profiles store0 readFail,
      total := 0, collected := 0, skipped := 0, errors := 0, events := [] }

/-! ## Concrete run fixtures -/

set_option maxRecDepth 10000

/-- A leaderboard source URL (maps to category `Explore`). -/
def srcExplore : String := ("https://substack.com/explore")

/-- A second, distinct leaderboard source URL. -/
def srcSecond : String := ("https://substack.com/explore2")

def urlA : String := ("https://substack.com/@a")

def urlB : String := ("https://substack.com/@b")

def urlC : String := ("https://substack.com/@c")

/-- Two discovered profile URLs whose handles differ only in case:
both have identity key `foo`. -/
def urlFooU : String := ("https://substack.com/@Foo")

def urlFooL : String := ("https://substack.com/@foo")

def url1 : String := ("https://substack.com/@x1")

def url2 : String := ("https://substack.com/@x2")

def urlT : String := ("https://substack.com/@t")

/-- Permissive configuration: no subscriber thresholds, no platform
allow-list, links not required, batch size 3, quota 100. -/
def cfgS : RunConfig :=
  { max_profiles := 100, max_subscribers := 0, min_subscribers := 0,
    platforms := [], require_social_links := false,
    concurrent_profiles := 3 }

/-- Page data every profile of the happy-path fixtures yields:
12 subscribers and one Twitter link. -/
def okPage : PageData :=
  { extractError := false, throttled := false,
    subscriberText := ("12 subscribers"),
    socialLinks := [(("twitter"), ("https://twitter.com/c"))] }

/-- Initial durable store holding identity keys `a` and `b`. -/
def store0S : Option (List (List String)) :=
  some [get_csv_header, [("a")], [("b")]]

/-- Resume-scenario environment: discovery returns `{a, b, c}`. -/
def envS : Env :=
  { page := fun _ => okPage,
    source := fun _ => { loadError := false, discovered := [urlA, urlB, urlC] },
    appendFails := fun _ => false,
    now := ("2026-01-01 00:00:00") }

/-- The resume-scenario run: store `{a, b}`, discovery `{a, b, c}`. -/
def runS : RunState := scrape_leaderboards cfgS envS [srcExplore] store0S none

/-- Environment whose single source reveals the two case-variant URLs
`@Foo` and `@foo` (same identity key) in one batch. -/
def envDup : Env :=
  { page := fun _ => okPage,
    source := fun _ => { loadError := false, discovered := [urlFooU, urlFooL] },
    appendFails := fun _ => false,
    now := ("2026-01-01 00:00:00") }

/-- Run over the case-variant discovery with an empty store. -/
def runDup : RunState := scrape_leaderboards cfgS envDup [srcExplore] none none

/-- Environment whose every profile page carries the rate-limit
marker. -/
def envThrottle : Env :=
  { page := fun _ =>
      { extractError := false, throttled := true,
        subscriberText := (""), socialLinks := [] },
    source := fun _ => { loadError := false, discovered := [urlT] },
    appendFails := fun _ => false,
    now := ("2026-01-01 00:00:00") }

/-- A batch containing one throttled candidate. -/
def batchThrottled : BatchOut :=
  scrape_profile_batch cfgS envThrottle [urlT] ("Explore") []

/-- Environment for the persistence-failure run: source 1 discovers
`@x1`, source 2 discovers `@x2`, and appending the record of `x1`
fails with an I/O error. -/
def envWriteFail : Env :=
  { page := fun _ => okPage,
    source := fun u =>
      if u = srcSecond then { loadError := false, discovered := [url2] }
      else { loadError := false, discovered := [url1] },
    appendFails := fun name => name = ("x1"),
    now := ("2026-01-01 00:00:00") }

/-- Run over two sources where source 1's only append fails. -/
def runWriteFail : RunState :=
  scrape_leaderboards cfgS envWriteFail [srcExplore, srcSecond] none none

/-- Driver state after the failing first source of `runWriteFail`. -/
def stAfterFailingSource : RunState :=
  processSource cfgS envWriteFail srcExplore
    { store := none, existing := load_existing_profiles none none,
      total := 0, collected := 0, skipped := 0, errors := 0, events := [] }

/-- Environment discovering the already-stored profile `@a`. -/
def envReload : Env :=
  { page := fun _ => okPage,
    source := fun _ => { loadError := false, discovered := [urlA] },
    appendFails := fun _ => false,
    now := ("2026-01-01 00:00:00") }

/-- A store whose data rows already contain key `a`. -/
def store9 : Option (List (List String)) := some [get_csv_header, [("a")]]

/-- Run against `store9` when reading the store raises immediately
(`failAfter = 0`): duplicate protection is silently disabled. -/
def runUnreadable : RunState :=
  scrape_leaderboards cfgS envReload [srcExplore] store9 (some 0)

/-- Quota 1 with batch size 2: the quota can be crossed mid-batch. -/
def cfg10 : RunConfig :=
  { max_profiles := 1, max_subscribers := 0, min_subscribers := 0,
    platforms := [], require_social_links := false,
    concurrent_profiles := 2 }

/-- Environment discovering two acceptable profiles for the
quota-overrun run. -/
def envTwo : Env :=
  { page := fun _ => okPage,
    source := fun _ => { loadError := false, discovered := [url1, url2] },
    appendFails := fun _ => false,
    now := ("2026-01-01 00:00:00") }

/-- Run with quota 1, batch size 2, two acceptable candidates. -/
def runOverrun : RunState := scrape_leaderboards cfg10 envTwo [srcExplore] none none

/-- A sample accepted profile used for the persistence theorems. -/
def sampleProfile : Profile :=
  { username := ("u"), profile_url := ("https://substack.com/@u"),
    subscriber_count := 5, social_links := [],
    scraped_at := ("2026-01-01 00:00:00"), category := ("Explore") }

/-- Folding the writer over a list of accepted records. -/
def appendAll (ps : List Profile) (store : Option (List (List String))) :
    Option (List (List String)) :=
  ps.foldl (fun st p => append_to_csv p st) store

/-! ## Invariant vocabulary -/

/-- A store shape reachable by the writer: absent, or with at least
one row (the writer never creates an empty file; an existing empty
file only arises externally). -/
def GoodStore (store : Option (List (List String))) : Prop :=
  store = none ∨ ∃ r rows, store = some (r :: rows)

/-- The dedup invariant carried through a run: the data-row keys of
the store are pairwise distinct, every stored key is in the in-memory
dedup set, and the store is writer-shaped. -/
def DedupInv (st : RunState) : Prop :=
  (storeDataKeys st.store).Nodup ∧
  (∀ k ∈ storeDataKeys st.store, k ∈ st.existing) ∧
  GoodStore st.store

/-- The `total_processed` count recorded at a batch or source start
event, if any. -/
def startTotal? : Event → Option Nat
  | Event.batchStarted t => some t
  | Event.sourceStarted _ t => some t
  | _ => none

/-- Every batch/source start in the trace happened strictly below the
quota. -/
def QuotaEvents (m : Nat) (evts : List Event) : Prop :=
  ∀ e ∈ evts, ∀ t, startTotal? e = some t → t < m

/-- Configuration with a positive subscriber ceiling and the
required-link check enabled, for the filter-chain witness. -/
def cfgCeil : RunConfig :=
  { max_profiles := 100, max_subscribers := 10, min_subscribers := 0,
    platforms := [], require_social_links := true,
    concurrent_profiles := 3 }

/-! ## Helper lemmas: batch events and persistence loop -/

theorem extractLoop_events_mem (cfg : RunConfig) (env : Env) (category : String)
    (existing : List String) :
    ∀ (urls : List String) (acc : BatchOut) (e : Event),
      e ∈ (extractLoop cfg env category existing urls acc).events →
      e ∈ acc.events ∨ ∃ u, e = Event.throttleMarked u := by
  intro urls
  induction urls with
  | nil => intro acc e h; exact Or.inl h
  | cons url rest ih =>
    intro acc e h
    rw [extractLoop] at h
    split at h
    · exact ih acc e h
    · dsimp only at h
      split at h
      · have h4 := ih _ e h
        exact h4
      · split at h
        · have h4 := ih _ e h
          rcases h4 with h' | h'
          · rcases List.mem_append.1 h' with h'' | h''
            · exact Or.inl h''
            · rw [List.mem_singleton] at h''
              exact Or.inr ⟨_, h''⟩
          · exact Or.inr h'
        · split at h
          · have h4 := ih _ e h
            exact h4
          · split at h
            · have h4 := ih _ e h
              exact h4
            · have h4 := ih _ e h
              exact h4

theorem scrape_profile_batch_events_mem (cfg : RunConfig) (env : Env)
    (urls : List String) (category : String) (existing : List String)
    (e : Event)
    (h : e ∈ (scrape_profile_batch cfg env urls category existing).events) :
    (∃ u, e = Event.fetchIssued u) ∨ ∃ u, e = Event.throttleMarked u := by
  rcases extractLoop_events_mem cfg env category existing urls _ e h with h' | h'
  · rcases List.mem_map.1 h' with ⟨u, _, hu⟩
    exact Or.inl ⟨u, hu.symm⟩
  · exact Or.inr h'

theorem scrape_profile_batch_no_error_delay (cfg : RunConfig) (env : Env)
    (urls : List String) (category : String) (existing : List String) :
    countErrorDelays (scrape_profile_batch cfg env urls category existing).events = 0 := by
  unfold countErrorDelays
  rw [List.length_eq_zero, List.filter_eq_nil_iff]
  intro e he
  rcases scrape_profile_batch_events_mem cfg env urls category existing e he with
    ⟨u, rfl⟩ | ⟨u, rfl⟩ <;> simp

theorem appendResults_events (env : Env) :
    ∀ (rs : List Profile) (st : RunState),
      ((appendResults env rs st).1).events = st.events := by
  intro rs
  induction rs with
  | nil => intro st; rfl
  | cons p rest ih =>
    intro st
    rw [appendResults]
    split
    · rfl
    · exact ih _

theorem appendResults_existing (env : Env) :
    ∀ (rs : List Profile) (st : RunState),
      ((appendResults env rs st).1).existing = st.existing := by
  intro rs
  induction rs with
  | nil => intro st; rfl
  | cons p rest ih =>
    intro st
    rw [appendResults]
    split
    · rfl
    · exact ih _

theorem appendResults_total_le (env : Env) :
    ∀ (rs : List Profile) (st : RunState),
      ((appendResults env rs st).1).total ≤ st.total + rs.length := by
  intro rs
  induction rs with
  | nil => intro st; exact Nat.le_add_right _ _
  | cons p rest ih =>
    intro st
    rw [appendResults]
    split
    · exact Nat.le_add_right _ _
    · refine le_trans (ih _) ?_
      dsimp only
      rw [List.length_cons]
      omega

theorem appendResults_noFail_snd (env : Env)
    (hf : ∀ u, env.appendFails u = false) :
    ∀ (rs : List Profile) (st : RunState),
      (appendResults env rs st).2 = false := by
  intro rs
  induction rs with
  | nil => intro st; rfl
  | cons p rest ih =>
    intro st
    rw [appendResults, hf p.username]
    exact ih _

theorem appendResults_noFail_store (env : Env)
    (hf : ∀ u, env.appendFails u = false) :
    ∀ (rs : List Profile) (st : RunState),
      ((appendResults env rs st).1).store = appendAll rs st.store := by
  intro rs
  induction rs with
  | nil => intro st; rfl
  | cons p rest ih =>
    intro st
    rw [appendResults, hf p.username]
    exact ih _

theorem appendResults_noFail_total (env : Env)
    (hf : ∀ u, env.appendFails u = false) :
    ∀ (rs : List Profile) (st : RunState),
      ((appendResults env rs st).1).total = st.total + rs.length := by
  intro rs
  induction rs with
  | nil => intro st; rfl
  | cons p rest ih =>
    intro st
    rw [appendResults, hf p.username, if_neg Bool.false_ne_true, ih]
    dsimp only
    rw [List.length_cons]
    omega

theorem storeDataKeys_append_to_csv (p : Profile)
    (store : Option (List (List String))) (h : GoodStore store) :
    storeDataKeys (append_to_csv p store) =
      storeDataKeys store ++ [lowerStr p.username] ∧
    GoodStore (append_to_csv p store) := by
  rcases h with rfl | ⟨r, rows, rfl⟩
  · constructor
    · rfl
    · exact Or.inr ⟨get_csv_header, [rowOfProfile p], rfl⟩
  · constructor
    · show storeDataKeys (some ((r :: rows) ++ [rowOfProfile p])) = _
      simp [storeDataKeys, rowOfProfile, List.filterMap_append]
    · exact Or.inr ⟨r, rows ++ [rowOfProfile p], rfl⟩

theorem storeDataKeys_appendAll (ps : List Profile) :
    ∀ (store : Option (List (List String))), GoodStore store →
      storeDataKeys (appendAll ps store) =
        storeDataKeys store ++ ps.map (fun p => lowerStr p.username) ∧
      GoodStore (appendAll ps store) := by
  induction ps with
  | nil =>
    intro store h
    refine ⟨?_, h⟩
    rw [List.map_nil, List.append_nil]
    rfl
  | cons p rest ih =>
    intro store h
    have h1 := storeDataKeys_append_to_csv p store h
    have h2 := ih (append_to_csv p store) h1.2
    refine ⟨?_, h2.2⟩
    show storeDataKeys (appendAll rest (append_to_csv p store)) = _
    rw [h2.1, h1.1, List.map_cons, List.append_assoc, List.singleton_append]

theorem extractLoop_spec (cfg : RunConfig) (env : Env) (category : String)
    (existing : List String) :
    ∀ (urls : List String) (acc : BatchOut),
      ∃ X : List Profile,
        (extractLoop cfg env category existing urls acc).results =
          acc.results ++ X ∧
        (extractLoop cfg env category existing urls acc).newUsernames =
          acc.newUsernames ++ X.map (fun p => lowerStr p.username) ∧
        (X.map (fun p => lowerStr p.username)).Sublist (urls.map keyOfUrl) ∧
        ∀ p ∈ X, lowerStr p.username ∉ existing := by
  intro urls
  induction urls with
  | nil =>
    intro acc
    exact ⟨[], by simp [extractLoop]⟩
  | cons url rest ih =>
    intro acc
    have skipStep : ∀ acc2 : BatchOut,
        (∃ X : List Profile,
          (extractLoop cfg env category existing rest acc2).results =
            acc2.results ++ X ∧
          (extractLoop cfg env category existing rest acc2).newUsernames =
            acc2.newUsernames ++ X.map (fun p => lowerStr p.username) ∧
          (X.map (fun p => lowerStr p.username)).Sublist (rest.map keyOfUrl) ∧
          ∀ p ∈ X, lowerStr p.username ∉ existing) →
        ∃ X : List Profile,
          (extractLoop cfg env category existing rest acc2).results =
            acc2.results ++ X ∧
          (extractLoop cfg env category existing rest acc2).newUsernames =
            acc2.newUsernames ++ X.map (fun p => lowerStr p.username) ∧
          (X.map (fun p => lowerStr p.username)).Sublist ((url :: rest).map keyOfUrl) ∧
          ∀ p ∈ X, lowerStr p.username ∉ existing := by
      intro acc2 ⟨X, hX⟩
      exact ⟨X, hX.1, hX.2.1,
        hX.2.2.1.trans (List.sublist_cons_self _ _), hX.2.2.2⟩
    rw [extractLoop]
    split
    · exact skipStep acc (ih acc)
    · rename_i hmem
      dsimp only
      split
    -- extraction exception: only the error counter changes
      · exact skipStep _ (ih _)
      · split
    -- throttle marker: error counter and an event
        · exact skipStep _ (ih _)
        · cases hp : parse_subscriber_count (env.page url).subscriberText with
          | error err =>
            dsimp only
            exact skipStep _ (ih _)
          | ok count =>
            dsimp only
            cases hfc : filterChain cfg count (env.page url).socialLinks with
            | mk outcome trace =>
              cases outcome with
              | skippedOut =>
                dsimp only
                exact skipStep _ (ih _)
              | accepted links2 =>
                dsimp only
                rcases ih _ with ⟨X, hX⟩
                refine ⟨{ username := usernameOfUrl url, profile_url := url,
                          subscriber_count := count, social_links := links2,
                          scraped_at := env.now, category := category } :: X,
                        ?_, ?_, ?_, ?_⟩
                · rw [hX.1]
                  dsimp only
                  rw [List.append_assoc, List.singleton_append]
                · rw [hX.2.1]
                  dsimp only
                  rw [List.map_cons, List.append_assoc, List.singleton_append]
                · rw [List.map_cons, List.map_cons]
                  exact List.Sublist.cons₂ _ hX.2.2.1
                · intro q hq
                  rcases List.mem_cons.1 hq with rfl | hq'
                  · exact hmem
                  · exact hX.2.2.2 q hq'

theorem scrape_profile_batch_spec (cfg : RunConfig) (env : Env)
    (urls : List String) (category : String) (existing : List String) :
    ∃ X : List Profile,
      (scrape_profile_batch cfg env urls category existing).results = X ∧
      (scrape_profile_batch cfg env urls category existing).newUsernames =
        X.map (fun p => lowerStr p.username) ∧
      (X.map (fun p => lowerStr p.username)).Sublist (urls.map keyOfUrl) ∧
      ∀ p ∈ X, lowerStr p.username ∉ existing := by
  rcases extractLoop_spec cfg env category existing urls
    { results := [], skipped := 0, errors := 0, newUsernames := [],
      events := urls.map Event.fetchIssued } with ⟨X, hX⟩
  refine ⟨X, ?_, ?_, hX.2.2.1, hX.2.2.2⟩
  · unfold scrape_profile_batch
    rw [hX.1]
    exact List.nil_append X
  · unfold scrape_profile_batch
    rw [hX.2.1]
    exact List.nil_append _

theorem scrape_profile_batch_results_length (cfg : RunConfig) (env : Env)
    (urls : List String) (category : String) (existing : List String) :
    (scrape_profile_batch cfg env urls category existing).results.length ≤
      urls.length := by
  rcases scrape_profile_batch_spec cfg env urls category existing with
    ⟨X, h1, _, hsub, _⟩
  rw [h1]
  have h2 := hsub.length_le
  simpa using h2

theorem processBatches_total_le (cfg : RunConfig) (env : Env) (category : String) :
    ∀ (fuel : Nat) (urls : List String) (st : RunState),
      st.total ≤ cfg.max_profiles + cfg.concurrent_profiles - 1 →
      ((processBatches cfg env category fuel urls st).1).total ≤
        cfg.max_profiles + cfg.concurrent_profiles - 1 := by
  intro fuel
  induction fuel with
  | zero => intro urls st h; exact h
  | succ fuel ih =>
    intro urls st h
    rw [processBatches]
    split
    · exact h
    · split
      · exact h
      · rename_i hne hq
        dsimp only
        have hlen : (scrape_profile_batch cfg env
            (urls.take cfg.concurrent_profiles) category st.existing).results.length ≤
            cfg.concurrent_profiles := by
          calc (scrape_profile_batch cfg env (urls.take cfg.concurrent_profiles)
                  category st.existing).results.length
              ≤ (urls.take cfg.concurrent_profiles).length :=
                scrape_profile_batch_results_length _ _ _ _ _
            _ ≤ cfg.concurrent_profiles := List.length_take_le _ _
        split
        · rename_i st2 heq
          show st2.total ≤ _
          have h1 := appendResults_total_le env
            (scrape_profile_batch cfg env (urls.take cfg.concurrent_profiles)
              category st.existing).results
            { st with events := st.events ++
                [Event.batchStarted st.total] ++
                (scrape_profile_batch cfg env (urls.take cfg.concurrent_profiles)
                  category st.existing).events }
          rw [heq] at h1
          have h2 : st2.total ≤ st.total +
              (scrape_profile_batch cfg env (urls.take cfg.concurrent_profiles)
                category st.existing).results.length := h1
          omega
        · rename_i st2 heq
          refine ih _ _ ?_
          show st2.total ≤ _
          have h1 := appendResults_total_le env
            (scrape_profile_batch cfg env (urls.take cfg.concurrent_profiles)
              category st.existing).results
            { st with events := st.events ++
                [Event.batchStarted st.total] ++
                (scrape_profile_batch cfg env (urls.take cfg.concurrent_profiles)
                  category st.existing).events }
          rw [heq] at h1
          have h2 : st2.total ≤ st.total +
              (scrape_profile_batch cfg env (urls.take cfg.concurrent_profiles)
                category st.existing).results.length := h1
          omega

theorem processSource_total_le (cfg : RunConfig) (env : Env) (url : String)
    (st : RunState)
    (h : st.total ≤ cfg.max_profiles + cfg.concurrent_profiles - 1) :
    (processSource cfg env url st).total ≤
      cfg.max_profiles + cfg.concurrent_profiles - 1 := by
  unfold processSource
  dsimp only
  split
  · exact h
  · split
    · rename_i st2 heq
      have h1 := processBatches_total_le cfg env
        (get_category_title (categorySlugOf url))
        ((env.source url).discovered.filter
          (fun u => decide (keyOfUrl u ∉ st.existing))).length
        ((env.source url).discovered.filter
          (fun u => decide (keyOfUrl u ∉ st.existing)))
        { st with events := st.events ++ [Event.sourceStarted url st.total] } h
      rw [heq] at h1
      exact h1
    · rename_i st2 heq
      have h1 := processBatches_total_le cfg env
        (get_category_title (categorySlugOf url))
        ((env.source url).discovered.filter
          (fun u => decide (keyOfUrl u ∉ st.existing))).length
        ((env.source url).discovered.filter
          (fun u => decide (keyOfUrl u ∉ st.existing)))
        { st with events := st.events ++ [Event.sourceStarted url st.total] } h
      rw [heq] at h1
      exact h1

theorem processSources_total_le (cfg : RunConfig) (env : Env) :
    ∀ (urls : List String) (st : RunState),
      st.total ≤ cfg.max_profiles + cfg.concurrent_profiles - 1 →
      (processSources cfg env urls st).total ≤
        cfg.max_profiles + cfg.concurrent_profiles - 1 := by
  intro urls
  induction urls with
  | nil => intro st h; exact h
  | cons url rest ih =>
    intro st h
    rw [processSources]
    split
    · exact h
    · exact ih _ (processSource_total_le cfg env url st h)

theorem processBatches_quota (cfg : RunConfig) (env : Env) (category : String) :
    ∀ (fuel : Nat) (urls : List String) (st : RunState),
      QuotaEvents cfg.max_profiles st.events →
      QuotaEvents cfg.max_profiles
        ((processBatches cfg env category fuel urls st).1).events := by
  intro fuel
  induction fuel with
  | zero => intro urls st h; exact h
  | succ fuel ih =>
    intro urls st h
    rw [processBatches]
    split
    · exact h
    · split
      · exact h
      · rename_i hne hq
        dsimp only
        have hst1 : QuotaEvents cfg.max_profiles
            (st.events ++ [Event.batchStarted st.total] ++
             (scrape_profile_batch cfg env (urls.take cfg.concurrent_profiles)
               category st.existing).events) := by
          intro e he t ht
          rcases List.mem_append.1 he with he1 | he2
          · rcases List.mem_append.1 he1 with he3 | he4
            · exact h e he3 t ht
            · rw [List.mem_singleton] at he4
              subst he4
              simp only [startTotal?, Option.some.injEq] at ht
              rw [← ht]
              exact Nat.lt_of_not_le hq
          · rcases scrape_profile_batch_events_mem cfg env _ category _ e he2 with
              ⟨u, rfl⟩ | ⟨u, rfl⟩
            · exact absurd ht (by simp [startTotal?])
            · exact absurd ht (by simp [startTotal?])
        have h1 := appendResults_events env
          (scrape_profile_batch cfg env (urls.take cfg.concurrent_profiles)
            category st.existing).results
          { st with events := st.events ++
              [Event.batchStarted st.total] ++
              (scrape_profile_batch cfg env (urls.take cfg.concurrent_profiles)
                category st.existing).events }
        split
        · rename_i st2 heq
          rw [heq] at h1
          show QuotaEvents cfg.max_profiles st2.events
          intro e he t ht
          have h2 : st2.events = st.events ++ [Event.batchStarted st.total] ++
              (scrape_profile_batch cfg env (urls.take cfg.concurrent_profiles)
                category st.existing).events := h1
          rw [h2] at he
          exact hst1 e he t ht
        · rename_i st2 heq
          rw [heq] at h1
          refine ih _ _ ?_
          show QuotaEvents cfg.max_profiles st2.events
          intro e he t ht
          have h2 : st2.events = st.events ++ [Event.batchStarted st.total] ++
              (scrape_profile_batch cfg env (urls.take cfg.concurrent_profiles)
                category st.existing).events := h1
          rw [h2] at he
          exact hst1 e he t ht

theorem processSource_quota (cfg : RunConfig) (env : Env) (url : String)
    (st : RunState) (hq : st.total < cfg.max_profiles)
    (h : QuotaEvents cfg.max_profiles st.events) :
    QuotaEvents cfg.max_profiles (processSource cfg env url st).events := by
  unfold processSource
  dsimp only
  have hst1 : QuotaEvents cfg.max_profiles
      (st.events ++ [Event.sourceStarted url st.total]) := by
    intro e he t ht
    rcases List.mem_append.1 he with he1 | he2
    · exact h e he1 t ht
    · rw [List.mem_singleton] at he2
      subst he2
      simp only [startTotal?, Option.some.injEq] at ht
      rw [← ht]
      exact hq
  split
  · exact hst1
  · split
    · rename_i st2 heq
      have h1 := processBatches_quota cfg env
        (get_category_title (categorySlugOf url))
        ((env.source url).discovered.filter
          (fun u => decide (keyOfUrl u ∉ st.existing))).length
        ((env.source url).discovered.filter
          (fun u => decide (keyOfUrl u ∉ st.existing)))
        { st with events := st.events ++ [Event.sourceStarted url st.total] } hst1
      rw [heq] at h1
      exact h1
    · rename_i st2 heq
      have h1 := processBatches_quota cfg env
        (get_category_title (categorySlugOf url))
        ((env.source url).discovered.filter
          (fun u => decide (keyOfUrl u ∉ st.existing))).length
        ((env.source url).discovered.filter
          (fun u => decide (keyOfUrl u ∉ st.existing)))
        { st with events := st.events ++ [Event.sourceStarted url st.total] } hst1
      rw [heq] at h1
      exact h1

theorem processSources_quota (cfg : RunConfig) (env : Env) :
    ∀ (urls : List String) (st : RunState),
      QuotaEvents cfg.max_profiles st.events →
      QuotaEvents cfg.max_profiles (processSources cfg env urls st).events := by
  intro urls
  induction urls with
  | nil => intro st h; exact h
  | cons url rest ih =>
    intro st h
    rw [processSources]
    split
    · exact h
    · rename_i hq
      exact ih _ (processSource_quota cfg env url st (Nat.lt_of_not_le hq) h)

theorem load_existing_profiles_ok (store : Option (List (List String))) :
    load_existing_profiles store none = storeDataKeys store := by
  cases store <;> rfl

theorem processBatches_dedup (cfg : RunConfig) (env : Env) (category : String)
    (hf : ∀ u, env.appendFails u = false) :
    ∀ (fuel : Nat) (urls : List String) (st : RunState),
      (urls.map keyOfUrl).Nodup → DedupInv st →
      DedupInv ((processBatches cfg env category fuel urls st).1) := by
  intro fuel
  induction fuel with
  | zero => intro urls st _ h; exact h
  | succ fuel ih =>
    intro urls st hnd h
    rw [processBatches]
    split
    · exact h
    · split
      · exact h
      · rename_i hne hq
        dsimp only
        rcases scrape_profile_batch_spec cfg env
          (urls.take cfg.concurrent_profiles) category st.existing with
          ⟨X, hres, hnew, hsub, hnotin⟩
        have hbk : ((urls.take cfg.concurrent_profiles).map keyOfUrl).Nodup := by
          rw [List.map_take]
          exact hnd.sublist (List.take_sublist _ _)
        have hXnd : (X.map (fun p => lowerStr p.username)).Nodup :=
          hbk.sublist hsub
        have hkeys := storeDataKeys_appendAll X st.store h.2.2
        have hsnd := appendResults_noFail_snd env hf
          (scrape_profile_batch cfg env (urls.take cfg.concurrent_profiles)
            category st.existing).results
          { st with events := st.events ++
              [Event.batchStarted st.total] ++
              (scrape_profile_batch cfg env (urls.take cfg.concurrent_profiles)
                category st.existing).events }
        have hstore := appendResults_noFail_store env hf
          (scrape_profile_batch cfg env (urls.take cfg.concurrent_profiles)
            category st.existing).results
          { st with events := st.events ++
              [Event.batchStarted st.total] ++
              (scrape_profile_batch cfg env (urls.take cfg.concurrent_profiles)
                category st.existing).events }
        have hexist := appendResults_existing env
          (scrape_profile_batch cfg env (urls.take cfg.concurrent_profiles)
            category st.existing).results
          { st with events := st.events ++
              [Event.batchStarted st.total] ++
              (scrape_profile_batch cfg env (urls.take cfg.concurrent_profiles)
                category st.existing).events }
        split
        · rename_i st2 heq
          rw [heq] at hsnd
          exact absurd hsnd (by simp)
        · rename_i st2 heq
          rw [heq] at hstore hexist
          have hstore2 : st2.store = appendAll X st.store := by
            rw [hres] at hstore
            exact hstore
          have hexist2 : st2.existing = st.existing := hexist
          have hdk : ((urls.drop cfg.concurrent_profiles).map keyOfUrl).Nodup := by
            rw [List.map_drop]
            exact hnd.sublist (List.drop_sublist _ _)
          refine ih _ _ hdk ⟨?_, ?_, ?_⟩
          · show (storeDataKeys st2.store).Nodup
            rw [hstore2, hkeys.1, List.nodup_append]
            refine ⟨h.1, hXnd, ?_⟩
            intro a ha1 ha2
            rcases List.mem_map.1 ha2 with ⟨p, hp, rfl⟩
            exact hnotin p hp (h.2.1 _ ha1)
          · show ∀ k ∈ storeDataKeys st2.store,
              k ∈ st2.existing ++
                (scrape_profile_batch cfg env (urls.take cfg.concurrent_profiles)
                  category st.existing).newUsernames
            intro k hk
            rw [hstore2, hkeys.1] at hk
            rcases List.mem_append.1 hk with hk1 | hk2
            · refine List.mem_append_left _ ?_
              rw [hexist2]
              exact h.2.1 k hk1
            · refine List.mem_append_right _ ?_
              rw [hnew]
              exact hk2
          · show GoodStore st2.store
            rw [hstore2]
            exact hkeys.2

theorem processSource_dedup (cfg : RunConfig) (env : Env) (url : String)
    (st : RunState) (hf : ∀ u, env.appendFails u = false)
    (hnd : ((env.source url).discovered.map keyOfUrl).Nodup)
    (h : DedupInv st) : DedupInv (processSource cfg env url st) := by
  unfold processSource
  dsimp only
  have hnd2 : (((env.source url).discovered.filter
      (fun u => decide (keyOfUrl u ∉ st.existing))).map keyOfUrl).Nodup :=
    hnd.sublist (List.Sublist.map keyOfUrl (List.filter_sublist _))
  split
  · exact h
  · split
    · rename_i st2 heq
      have h1 := processBatches_dedup cfg env
        (get_category_title (categorySlugOf url)) hf
        ((env.source url).discovered.filter
          (fun u => decide (keyOfUrl u ∉ st.existing))).length
        ((env.source url).discovered.filter
          (fun u => decide (keyOfUrl u ∉ st.existing)))
        { st with events := st.events ++ [Event.sourceStarted url st.total] }
        hnd2 h
      rw [heq] at h1
      exact h1
    · rename_i st2 heq
      have h1 := processBatches_dedup cfg env
        (get_category_title (categorySlugOf url)) hf
        ((env.source url).discovered.filter
          (fun u => decide (keyOfUrl u ∉ st.existing))).length
        ((env.source url).discovered.filter
          (fun u => decide (keyOfUrl u ∉ st.existing)))
        { st with events := st.events ++ [Event.sourceStarted url st.total] }
        hnd2 h
      rw [heq] at h1
      exact h1

theorem processSources_dedup (cfg : RunConfig) (env : Env)
    (hf : ∀ u, env.appendFails u = false)
    (hnd : ∀ url, ((env.source url).discovered.map keyOfUrl).Nodup) :
    ∀ (urls : List String) (st : RunState),
      DedupInv st → DedupInv (processSources cfg env urls st) := by
  intro urls
  induction urls with
  | nil => intro st h; exact h
  | cons url rest ih =>
    intro st h
    rw [processSources]
    split
    · exact h
    · exact ih _ (processSource_dedup cfg env url st hf (hnd url) h)

/-! ## Claim theorems -/

/-- C1 counterexample: two discovered URLs whose handles differ only
in case land in the same batch; the in-batch dedup check consults only
the dedup set as of batch start, so both records are persisted and the
identity key `foo` appears twice in the durable store. -/
theorem dedup_casefold_duplicate_cex :
    storeDataKeys runDup.store = [("foo"), ("foo")] ∧
    ¬ (storeDataKeys runDup.store).Nodup := ⟨by decide, by decide⟩

/-- C1 (amended): provided every append succeeds and the URLs
discovered for each source have pairwise-distinct case-normalized
keys, no identity key appears twice in the durable store within or
across runs (the writer keeps the store header-shaped, so the theorem
composes across runs); the dedup set is loaded from the existing CSV
at startup (first column, lowercased) and membership is checked before
fetching at discovery and re-checked before extraction; for a store
containing keys a, b with discovery returning a, b, c, only c is
fetched and persisted; re-running against unchanged sources appends
zero new rows. -/
theorem dedup_invariant_amended :
    (∀ (cfg : RunConfig) (env : Env) (urls : List String)
        (store0 : Option (List (List String))),
      (∀ u, env.appendFails u = false) →
      (∀ url, ((env.source url).discovered.map keyOfUrl).Nodup) →
      GoodStore store0 →
      (storeDataKeys store0).Nodup →
      (storeDataKeys (scrape_leaderboards cfg env urls store0 none).store).Nodup ∧
      GoodStore (scrape_leaderboards cfg env urls store0 none).store) ∧
    fetchedUrls runS.events = [urlC] ∧
    runS.store = some [get_csv_header, [("a")], [("b")],
      [("c"), urlC, ("12"), ("https://twitter.com/c"), (""), (""), (""), (""),
       (""), (""), (""), (""), (""), (""), (""), ("2026-01-01 00:00:00"),
       ("Explore")]] ∧
    (scrape_leaderboards cfgS envS [srcExplore] runS.store none).store =
      runS.store := by
  refine ⟨?_, by decide, by decide, by decide⟩
  intro cfg env urls store0 hf hnd hg hnodup
  have h0 : DedupInv
      { store := store0,
        existing := load_existing_profiles store0 none,
        total := 0, collected := 0, skipped := 0, errors := 0,
        events := [] } := by
    refine ⟨hnodup, ?_, hg⟩
    intro k hk
    show k ∈ load_existing_profiles store0 none
    rw [load_existing_profiles_ok]
    exact hk
  have h1 := processSources_dedup cfg env hf hnd urls _ h0
  exact ⟨h1.1, h1.2.2⟩

/-- C1 witness: the amended dedup theorem applied to the concrete
resume scenario. -/
theorem dedup_invariant_amended_witness :
    (storeDataKeys (scrape_leaderboards cfgS envS [srcExplore] store0S none).store).Nodup ∧
    GoodStore (scrape_leaderboards cfgS envS [srcExplore] store0S none).store :=
  dedup_invariant_amended.1 cfgS envS [srcExplore] store0S
    (fun _ => rfl)
    (fun _ => (by decide : ([urlA, urlB, urlC].map keyOfUrl).Nodup))
    (Or.inr ⟨get_csv_header, [[("a")], [("b")]], rfl⟩) (by decide)

/-- C2: the filter chain evaluates in the fixed order ceiling, floor,
platform projection, required-link, short-circuiting on the first
failing step (the evaluated-step trace is always a prefix of that
order); in particular a candidate whose count exceeds a configured
positive ceiling is Skipped with only the ceiling step evaluated,
regardless of its link mapping. -/
theorem filter_chain_short_circuit :
    ∀ (cfg : RunConfig) (count : Int) (links : List (String × String)),
      (filterChain cfg count links).2 <+: filterOrder ∧
      (0 < cfg.max_subscribers → cfg.max_subscribers < count →
        filterChain cfg count links =
          (FilterOutcome.skippedOut, [FilterStep.ceiling]) ∧
        FilterStep.requiredLink ∉ (filterChain cfg count links).2) := by
  intro cfg count links
  constructor
  · unfold filterChain
    split
    · exact ⟨[FilterStep.floor, FilterStep.platformProj,
        FilterStep.requiredLink], rfl⟩
    · split
      · exact ⟨[FilterStep.platformProj, FilterStep.requiredLink], rfl⟩
      · dsimp only
        split <;> split <;> exact ⟨[], List.append_nil _⟩
  · intro h1 h2
    have hc : filterChain cfg count links =
        (FilterOutcome.skippedOut, [FilterStep.ceiling]) := by
      unfold filterChain
      rw [if_pos ⟨h1, h2⟩]
    refine ⟨hc, ?_⟩
    rw [hc]
    decide

/-- C2 witness: ceiling 10, count 20, non-empty link mapping. -/
theorem filter_chain_short_circuit_witness :
    filterChain cfgCeil 20 [(("twitter"), ("https://twitter.com/x"))] =
      (FilterOutcome.skippedOut, [FilterStep.ceiling]) ∧
    FilterStep.requiredLink ∉
      (filterChain cfgCeil 20 [(("twitter"), ("https://twitter.com/x"))]).2 :=
  (filter_chain_short_circuit cfgCeil 20
    [(("twitter"), ("https://twitter.com/x"))]).2 (by decide) (by decide)

/-- C3: the subscriber-count parser returns exactly the specified
values on the five specified inputs. -/
theorem parse_subscriber_count_examples :
    parse_subscriber_count ("276K+ subscribers") = Except.ok 276000 ∧
    parse_subscriber_count ("1.5M subscribers") = Except.ok 1500000 ∧
    parse_subscriber_count ("12,345 subscribers") = Except.ok 12345 ∧
    parse_subscriber_count ("") = Except.ok 0 ∧
    parse_subscriber_count ("see 3 subscribers") = Except.ok 3 :=
  ⟨by decide, by decide, by decide, by decide, by decide⟩

/-- C4 counterexample: on input infk the cleaned text parses to an
infinite float, and converting it to int raises OverflowError, which
the except-ValueError handler does not catch: the parser is not total
and the exception propagates to the caller. -/
theorem parse_overflow_escapes_cex :
    parse_subscriber_count ("infk") = Except.error PyErr.overflowError ∧
    ∀ n : Int, parse_subscriber_count ("infk") ≠ Except.ok n := by
  refine ⟨by decide, ?_⟩
  intro n h
  rw [(by decide : parse_subscriber_count ("infk") =
    Except.error PyErr.overflowError)] at h
  exact Except.noConfusion h

/-- C4 (amended): a ValueError never propagates out of the parser
(every ValueError-class failure yields 0); the only exception that can
escape is the OverflowError raised on inputs denoting an infinite
float under the k/m scaling. -/
theorem parse_failure_yields_zero_amended :
    ∀ (s : String) (e : PyErr),
      parse_subscriber_count s = Except.error e → e = PyErr.overflowError := by
  intro s e h
  unfold parse_subscriber_count at h
  split at h
  · exact Except.noConfusion h
  · dsimp only at h
    split at h
    · exact Except.noConfusion h
    · rename_i heq
      injection h with h2
      exact h2.symm
    · exact Except.noConfusion h

/-- C4 witness: the amended theorem applied at input infk. -/
theorem parse_failure_yields_zero_amended_witness :
    parse_subscriber_count ("infk") = Except.error PyErr.overflowError ∧
    PyErr.overflowError = PyErr.overflowError :=
  ⟨by decide,
   parse_failure_yields_zero_amended ("infk") PyErr.overflowError (by decide)⟩

/-- C5 counterexample: appending to a store that exists but is empty
writes no header row, contradicting the claim that the header is
written if and only if the store did not previously exist or is
empty. -/
theorem csv_empty_file_no_header_cex :
    append_to_csv sampleProfile (some []) = some [rowOfProfile sampleProfile] ∧
    get_csv_header ∉ [rowOfProfile sampleProfile] := ⟨by decide, by decide⟩

/-- C5 (amended): the writer appends one row per accepted record and
writes the fixed-order header exactly once, if and only if the store
did not previously exist (an existing empty store receives no header);
the column order is exactly Username, Profile URL, Subscribers, the
twelve fixed platform columns ending in Other, Scraped At, Category. -/
theorem csv_header_once_amended :
    (∀ p : Profile,
      append_to_csv p none = some [get_csv_header, rowOfProfile p]) ∧
    (∀ (p : Profile) (rows : List (List String)),
      append_to_csv p (some rows) = some (rows ++ [rowOfProfile p])) ∧
    get_csv_header = [("Username"), ("Profile URL"), ("Subscribers"),
      ("Twitter"), ("Instagram"), ("TikTok"), ("LinkedIn"), ("Facebook"),
      ("YouTube"), ("Linktree"), ("Threads"), ("Bluesky"), ("GitHub"),
      ("Medium"), ("Other"), ("Scraped At"), ("Category")] ∧
    (∀ (p : Profile) (ps : List Profile),
      appendAll (p :: ps) none =
        some (get_csv_header :: (p :: ps).map rowOfProfile)) := by
  refine ⟨fun p => rfl, fun p rows => rfl, rfl, ?_⟩
  intro p ps
  have hgen : ∀ (qs : List Profile) (rows : List (List String)),
      appendAll qs (some rows) = some (rows ++ qs.map rowOfProfile) := by
    intro qs
    induction qs with
    | nil => intro rows; simp [appendAll]
    | cons q rest ih =>
      intro rows
      show appendAll rest (some (rows ++ [rowOfProfile q])) = _
      rw [ih]
      simp
  show appendAll ps (some [get_csv_header, rowOfProfile p]) = _
  rw [hgen]
  simp

/-- C6: before every batch start and every source start the driver has
checked the quota: each such event records a total strictly below
max_profiles, so no batch is ever started after the quota is met and
remaining sources are skipped. -/
theorem quota_checked_before_start :
    ∀ (cfg : RunConfig) (env : Env) (urls : List String)
      (store0 : Option (List (List String))) (readFail : Option Nat)
      (e : Event),
      e ∈ (scrape_leaderboards cfg env urls store0 readFail).events →
      ∀ t, startTotal? e = some t → t < cfg.max_profiles := by
  intro cfg env urls store0 readFail e he t ht
  have h0 : QuotaEvents cfg.max_profiles ([] : List Event) := by
    intro e' he' t' ht'
    exact absurd he' (List.not_mem_nil e')
  exact processSources_quota cfg env urls _ h0 e he t ht

/-- C6 witness: the batch started in the resume scenario run records
total 0, below the quota 100. -/
theorem quota_checked_before_start_witness :
    Event.batchStarted 0 ∈ runS.events ∧ 0 < cfgS.max_profiles :=
  ⟨by decide,
   quota_checked_before_start cfgS envS [srcExplore] store0S none
     (Event.batchStarted 0) (by decide) 0 rfl⟩

/-- C7 counterexample: in a batch containing one throttled candidate,
the candidate is counted as Errored but the escalated error delay is
invoked zero times, not exactly once. -/
theorem throttle_no_batch_delay_cex :
    batchThrottled.errors = 1 ∧
    countErrorDelays batchThrottled.events = 0 ∧
    countErrorDelays batchThrottled.events ≠ 1 :=
  ⟨by decide, by decide, by decide⟩

/-- C7 (amended): a throttled candidate in batch extraction is marked
Errored, but the batch path never invokes the escalated error delay
(zero times for any batch); the escalated delay exists only in the
unused single-profile path, which invokes it once per throttled
candidate. -/
theorem throttle_delay_amended :
    (∀ (cfg : RunConfig) (env : Env) (urls : List String)
        (category : String) (existing : List String),
      countErrorDelays
        (scrape_profile_batch cfg env urls category existing).events = 0) ∧
    (∀ (cfg : RunConfig) (env : Env) (url : String) (category : String),
      (env.page url).throttled = true → (env.page url).extractError = false →
      scrape_profile cfg env url category =
        (SPResult.errored, [Event.errorDelayInvoked])) := by
  constructor
  · exact scrape_profile_batch_no_error_delay
  · intro cfg env url category ht he
    simp [scrape_profile, he, ht]

/-- C7 witness: the amended theorem applied to a concrete throttled
page in the single-profile path. -/
theorem throttle_delay_amended_witness :
    (envThrottle.page urlT).throttled = true ∧
    scrape_profile cfgS envThrottle urlT ("Explore") =
      (SPResult.errored, [Event.errorDelayInvoked]) :=
  ⟨rfl, throttle_delay_amended.2 cfgS envThrottle urlT ("Explore") rfl rfl⟩

/-- C8 counterexample: with two sources where the only append of
source 1 fails, the run does not abort: source 2 is still started, its
record is fetched and persisted, and the failure is counted as one
source-level error. -/
theorem persistence_failure_continues_cex :
    Event.sourceStarted srcSecond 0 ∈ runWriteFail.events ∧
    fetchedUrls runWriteFail.events = [url1, url2] ∧
    storeDataKeys runWriteFail.store = [("x2")] ∧
    runWriteFail.errors = 1 :=
  ⟨by decide, by decide, by decide, by decide⟩

/-- C8 (amended): a persistence failure is caught by the per-source
exception handler: the failing record's Accept outcome is dropped
(store unchanged, nothing counted), the source contributes one error,
and the run resumes with the remaining source list unchanged. -/
theorem persistence_failure_amended :
    (∀ rest : List String,
      scrape_leaderboards cfgS envWriteFail (srcExplore :: rest) none none =
        processSources cfgS envWriteFail rest stAfterFailingSource) ∧
    stAfterFailingSource.store = none ∧
    stAfterFailingSource.total = 0 ∧
    stAfterFailingSource.errors = 1 ∧
    fetchedUrls stAfterFailingSource.events = [url1] :=
  ⟨fun _ => rfl, by decide, by decide, by decide, by decide⟩

/-- C9: if reading the existing store raises, the loader returns the
partially accumulated (possibly empty) key set and the run proceeds;
with an unreadable store the already-stored key a is re-fetched and
re-appended, so duplicate protection is silently disabled. -/
theorem unreadable_store_disables_dedup :
    (∀ rows : List (List String),
      load_existing_profiles (some rows) (some 0) = []) ∧
    (∀ (rows : List (List String)) (k : Nat),
      load_existing_profiles (some rows) (some k) =
        load_existing_profiles (some (rows.take k)) none) ∧
    storeDataKeys store9 = [("a")] ∧
    fetchedUrls runUnreadable.events = [urlA] ∧
    storeDataKeys runUnreadable.store = [("a"), ("a")] :=
  ⟨fun _ => rfl, fun _ _ => rfl, by decide, by decide, by decide⟩

/-- C10: the quota is checked only at batch and source boundaries, so
every accepted record of a started batch is persisted; consequently
the per-run total can exceed max_profiles by at most
concurrent_profiles - 1, and this bound is attained: with quota 1 and
batch size 2 both accepted records of the started batch are
persisted. -/
theorem quota_overrun_bounded :
    (∀ (cfg : RunConfig) (env : Env) (urls : List String)
        (store0 : Option (List (List String))) (readFail : Option Nat),
      (scrape_leaderboards cfg env urls store0 readFail).total ≤
        cfg.max_profiles + cfg.concurrent_profiles - 1) ∧
    runOverrun.total = 2 ∧
    cfg10.max_profiles < runOverrun.total ∧
    runOverrun.total = cfg10.max_profiles + cfg10.concurrent_profiles - 1 ∧
    storeDataKeys runOverrun.store = [("x1"), ("x2")] := by
  refine ⟨?_, by decide, by decide, by decide, by decide⟩
  intro cfg env urls store0 readFail
  exact processSources_total_le cfg env urls _ (Nat.zero_le _)
